import Mathlib

/-!
# youtube-channels-parser: a shallow embedding of `main.go`

The program is a two-stage crawler.  `parseSearchPages` turns a search request
into entries of the Redis list `pages`; `profilePage` turns one such entry into
at most one record of the MongoDB collection `channels`; the `/search` handler
feeds the Redis list `search` that the first stage consumes.

The embedding is by explicit state passing.  A `World` holds the collection,
the two Redis lists and the chronological trace of the calls the program made
to its collaborators.  What the collaborators answer (HTTP fetches, store
errors, queue errors, the clock) is an `Env`, indexed by the length of the
trace at the moment of the call, so that every sequence of answers is an `Env`.
`log.Fatal` ends the process: functions that can reach it return a flag that is
`false` once the process has exited.
-/

namespace YoutubeChannelsParser

/-! ## Go library functions used by `main.go` -/

/-- Fields of a character list separated by `sep`: `strings.Split` for a
one-character separator.  The result is never empty. -/
def splitChars (sep : Char) : List Char → List (List Char)
  | [] => [[]]
  | c :: cs =>
    if c = sep then [] :: splitChars sep cs
    else
      match splitChars sep cs with
      | [] => [[c]]
      | f :: fs => (c :: f) :: fs

/-- Go `strings.Split(s, sep)` where `sep` is a single character. -/
def strings.Split (s : String) (sep : Char) : List String :=
  (splitChars sep s.data).map String.mk

/-- Go `strings.Replace(s, old, new, -1)` where `old` and `new` are single
characters: every occurrence is replaced. -/
def strings.Replace (s : String) (old new : Char) : String :=
  ⟨s.data.map (fun c => if c = old then new else c)⟩

/-- The characters removed by the replacer of `profilePage`:
U+00A0 (no-break space), the space and the comma. -/
def isSeparator (c : Char) : Bool :=
  c = Char.ofNat 160 || c = ' ' || c = ','

/-- The replacer of `profilePage` (old strings U+00A0, space and comma, each
with the empty string as its new string) applied to `s`. -/
def subscribersReplacer (s : String) : String :=
  ⟨s.data.filter (fun c => !isSeparator c)⟩

/-- The two errors of Go `strconv.ParseUint`. -/
inductive NumError where
  | ErrSyntax
  | ErrRange
  deriving DecidableEq, Repr

/-- Largest `uint64`. -/
def maxUint64 : Nat := 2 ^ 64 - 1

/-- The `cutoff` of `strconv.ParseUint` in base 10: the smallest number whose
product with 10 exceeds `maxUint64`. -/
def cutoff10 : Nat := maxUint64 / 10 + 1

/-- The value `strconv.ParseUint` gives one byte of its input: a decimal digit
counts for itself, a letter for `10 + its rank`, anything else is rejected. -/
def digitValue (c : Char) : Option Nat :=
  if '0' ≤ c ∧ c ≤ '9' then some (c.toNat - '0'.toNat)
  else if 'a' ≤ c ∧ c ≤ 'z' then some (c.toNat - 'a'.toNat + 10)
  else if 'A' ≤ c ∧ c ≤ 'Z' then some (c.toNat - 'A'.toNat + 10)
  else none

/-- The scanning loop of `strconv.ParseUint(s, 10, 64)`: `n` is the `uint64`
accumulator.  The scan stops at the first byte that is not a decimal digit
(value 0, syntax error) or at the first digit that overflows 64 bits (value
`maxUint64`, range error), whichever comes first. -/
def parseUintLoop : List Char → Nat → Nat × Option NumError
  | [], n => (n, none)
  | c :: cs, n =>
    match digitValue c with
    | none => (0, some NumError.ErrSyntax)
    | some v =>
      if v ≥ 10 then (0, some NumError.ErrSyntax)
      else if n ≥ cutoff10 then (maxUint64, some NumError.ErrRange)
      else
        let m := (n * 10) % 2 ^ 64
        let n1 := (m + v) % 2 ^ 64
        if n1 < m ∨ n1 > maxUint64 then (maxUint64, some NumError.ErrRange)
        else parseUintLoop cs n1

/-- Go `strconv.ParseUint(s, 10, 64)`: the value and the error, if any.  As in
Go the value is meaningful also when there is an error. -/
def strconv.ParseUint (s : String) : Nat × Option NumError :=
  if s.data = [] then (0, some NumError.ErrSyntax) else parseUintLoop s.data 0

/-- Go `strconv.Itoa(i)` for a non-negative `i`. -/
def strconv.Itoa (i : Nat) : String := Nat.repr i

/-- Digit `n < 16` in upper-case hexadecimal, as in `net/url`. -/
def upperhex (n : Nat) : Char := "0123456789ABCDEF".data.getD n '0'

/-- Whether `net/url` keeps a character as it is in a query component:
ASCII letters and digits and `-`, `_`, `.`, `~`. -/
def url.unreserved (c : Char) : Bool :=
  c.isAlphanum || c = '-' || c = '_' || c = '.' || c = '~'

/-- Go `url.QueryEscape(s)`: a space becomes `+`, an unreserved character is
kept, every other byte of the UTF-8 encoding becomes `%XX`. -/
def url.QueryEscape (s : String) : String :=
  ⟨s.data.flatMap (fun c =>
    if c = ' ' then ['+']
    else if url.unreserved c then [c]
    else (String.utf8EncodeChar c).flatMap
      (fun b => ['%', upperhex (b.toNat / 16), upperhex (b.toNat % 16)]))⟩

/-- The address `parseSearchPages` builds for page `i` of the results for
`term`: `url.Values.Encode` writes the keys in sorted order, `page` before `q`. -/
def searchPageURL (term : String) (i : Nat) : String :=
  "https://www.youtube.com/channels" ++ "?" ++
    ("page=" ++ url.QueryEscape (strconv.Itoa i) ++ "&" ++ "q=" ++ url.QueryEscape term)

/-! ## Data model -/

/-- A stored channel profile (`type youtuber`).  `Subscribers` is a `uint64`,
`Created` a point in time, here a number. -/
structure youtuber where
  Name : String
  URL : String
  Subscribers : Nat
  Description : String
  Image : String
  Created : Nat
  Term : String
  Category : String
  deriving DecidableEq, Repr

/-- One entry of the list `pages` (`type pageRequest`). -/
structure pageRequest where
  URL : String
  Category : String
  Term : String
  deriving DecidableEq, Repr

/-- One entry of the list `search` (`type searchRequest`); the fields are
declared in the order `Category`, `Term`. -/
structure searchRequest where
  Category : String
  Term : String
  deriving DecidableEq, Repr

/-- Key of the Redis list of search requests. -/
def searchKey : String := "search"

/-- Key of the Redis list of page requests. -/
def pagesKey : String := "pages"

/-- An attribute of an HTML element (`html.Attribute`). -/
structure Attribute where
  Key : String
  Val : String
  deriving DecidableEq, Repr

/-- What the program reads of an HTML element (`html.Node`): its attributes
and the `Data` of its first child, if it has a child. -/
structure Node where
  Attr : List Attribute
  FirstChild : Option String

/-- A parsed document, seen through the selector engine: for each selector the
elements that match it, in document order. -/
structure Document where
  matchAll : String → List Node

/-- Answer of the store to an insert. -/
inductive InsertOutcome where
  | accepted
  | duplicate
  | failed (err : String)
  deriving DecidableEq, Repr

/-- The collaborators of the program.  Each answer is indexed by the length of
the trace when the call is made.  `findErr` is an error of a lookup other than
`mgo.ErrNotFound`; `insertRes` is the answer of the store to a record that
reached it; `rpushErr` is the error of an `RPush`. -/
structure Env where
  httpGet : Nat → String → Except String Document
  findErr : Nat → Option String
  insertRes : Nat → InsertOutcome
  rpushErr : Nat → Option String
  now : Nat → Nat

/-- A call of the program to a collaborator. -/
inductive Event where
  | get (url : String)
  | find (url category : String)
  | insert (y : youtuber)
  | rpush (key message : String)
  | print (line : String)
  | fatal (line : String)
  deriving DecidableEq, Repr

/-- State of the collaborators: the collection `channels`, the Redis lists
`search` and `pages`, and the calls made so far, oldest first. -/
structure World where
  channels : List youtuber
  search : List String
  pages : List String
  trace : List Event
  deriving DecidableEq, Repr

/-- Record a call at the end of the trace. -/
def World.emit (w : World) (e : Event) : World :=
  { w with trace := w.trace ++ [e] }

/-- The addresses fetched in a trace, oldest first. -/
def fetched (t : List Event) : List String :=
  t.filterMap (fun e => match e with
    | Event.get u => some u
    | _ => none)

/-- The messages of the `RPush` calls on list `key` in a trace, oldest first. -/
def pushed (key : String) (t : List Event) : List String :=
  t.filterMap (fun e => match e with
    | Event.rpush k m => if k = key then some m else none
    | _ => none)

/-- The records of the `Insert` calls in a trace, oldest first. -/
def inserts (t : List Event) : List youtuber :=
  t.filterMap (fun e => match e with
    | Event.insert y => some y
    | _ => none)

/-- No two records share `(URL, Category)`. -/
def uniqueKeys (cs : List youtuber) : Prop :=
  cs.Pairwise (fun a b => ¬ (a.URL = b.URL ∧ a.Category = b.Category))

/-- Number of records with the given `(URL, Category)`. -/
def keyCount (url category : String) (cs : List youtuber) : Nat :=
  cs.countP (fun y => y.URL = url ∧ y.Category = category)

/-! ## The functions of `main.go` -/

/-- `client.RPush(key, message).Err()`: the call is recorded; unless the
client reports an error the message is appended to the list. -/
def rpush (env : Env) (key message : String) (w : World) : World × Option String :=
  let w1 := w.emit (Event.rpush key message)
  match env.rpushErr w.trace.length with
  | some err => (w1, some err)
  | none =>
    if key = pagesKey then ({ w1 with pages := w1.pages ++ [message] }, none)
    else if key = searchKey then ({ w1 with search := w1.search ++ [message] }, none)
    else (w1, none)

/-- `func query`: fetch and parse `path`. -/
def query (env : Env) (path : String) (w : World) : World × Except String Document :=
  (w.emit (Event.get path), env.httpGet w.trace.length path)

/-- The two nested loops of `searchList`: the values of the `href` attributes
of the matched elements, in order. -/
def hrefs (divs : List Node) : List String :=
  divs.flatMap (fun div =>
    div.Attr.filterMap (fun attr => if attr.Key = "href" then some attr.Val else none))

/-- `func searchList`: the links of one result page; a failed fetch is logged
and gives the empty list. -/
def searchList (env : Env) (url : String) (w : World) : World × List String :=
  match query env url w with
  | (w1, Except.error err) =>
    (w1.emit (Event.print ("Error loading channals by url " ++ url ++ " " ++ err)), [])
  | (w1, Except.ok doc) =>
    (w1, hrefs (doc.matchAll ".qualified-channel-title-wrapper .yt-uix-sessionlink"))

/-- `func getText`: the `Data` of the first child of the first match, or the
empty string. -/
def getText (doc : Document) (selector : String) : String :=
  match (doc.matchAll selector).head? with
  | none => ""
  | some node =>
    match node.FirstChild with
    | none => ""
    | some data => data

/-- `func getAttr`: the loop variable shadows the parameter `attr` and the
key is compared with the constant `href`, whatever `attr` is. -/
def getAttr (doc : Document) (selector _attr : String) : String :=
  match (doc.matchAll selector).head? with
  | none => ""
  | some node =>
    match node.Attr.find? (fun attr => attr.Key = "href") with
    | none => ""
    | some attr => attr.Val

/-- `func addPage`: push `url;category;term` on `pages`.  The flag is `false`
when the push failed and `log.Fatal` ended the process. -/
def addPage (env : Env) (url category term : String) (w : World) : World × Bool :=
  let message := url ++ ";" ++ category ++ ";" ++ term
  match rpush env pagesKey message w with
  | (w1, some err) => (w1.emit (Event.fatal ("Push page to list error" ++ err)), false)
  | (w1, none) => (w1, true)

/-- `func exists`: `some false` when the lookup answers `mgo.ErrNotFound`,
`some true` when it finds a record; on any other error the request is pushed
back on `pages` and `log.Fatal` ends the process (`none`). -/
def «exists» (env : Env) (request : pageRequest) (w : World) : World × Option Bool :=
  let w1 := w.emit (Event.find request.URL request.Category)
  match env.findErr w.trace.length with
  | some err =>
    match addPage env request.URL request.Category request.Term w1 with
    | (w2, false) => (w2, none)
    | (w2, true) => (w2.emit (Event.fatal ("Error checking existance" ++ err)), none)
  | none =>
    match w.channels.find? (fun y => y.URL = request.URL ∧ y.Category = request.Category) with
    | none => (w1, some false)
    | some _ => (w1, some true)

/-- Largest `int64`. -/
def maxInt64 : Nat := 2 ^ 63 - 1

/-- `channels.Insert(&y)` as `profilePage` sees it.  The driver encodes the
record as BSON before it sends it; BSON has no unsigned 64-bit integer, and
the encoder refuses a `uint64` above `maxInt64`: the insert then fails, with
an error that is not a duplicate-key error, whatever the store would answer.
A record that can be encoded gets the answer of the store. -/
def channelsInsert (env : Env) (k : Nat) (y : youtuber) : InsertOutcome :=
  if maxInt64 < y.Subscribers then
    InsertOutcome.failed
      "BSON has no uint64 type, and value is too large to fit correctly in an int64"
  else env.insertRes k

/-- Lines 153 to 161 of `profilePage`: the subscriber text is stripped of its
separators, the empty string becomes `0`, and the result is parsed.  A parse
error is only printed: the value `ParseUint` returned with it is used. -/
def subscriberCount (text : String) : Nat × Option NumError :=
  let subscribers := subscribersReplacer text
  let subscribers := if subscribers = "" then "0" else subscribers
  strconv.ParseUint subscribers

/-- `func profilePage`.  The flag is `false` when `log.Fatal` ended the
process.  The line printed after a failed parse is recorded without the text
of the error. -/
def profilePage (env : Env) (request : pageRequest) (w : World) : World × Bool :=
  match «exists» env request w with
  | (w1, none) => (w1, false)
  | (w1, some true) => (w1, true)
  | (w1, some false) =>
    let url := request.URL
    let aboutURL := url ++ "/about"
    match query env aboutURL w1 with
    | (w2, Except.error err) =>
      (w2.emit (Event.print ("Error loading profile " ++ aboutURL ++ " " ++ err)), true)
    | (w2, Except.ok doc) =>
      let (i, err) := subscriberCount (getText doc ".subscribed")
      let w3 := match err with
        | some _ => w2.emit (Event.print "Error parsing subscribers")
        | none => w2
      if i < 1000 then (w3, true)
      else
        let description := getText doc ".about-description pre"
        let name := getText doc ".branded-page-header-title-link"
        let image := getAttr doc "link[itemprop=\x27thumbnailUrl\x27]" "href"
        let y : youtuber :=
          ⟨name, url, i, description, image, env.now w3.trace.length,
            request.Term, request.Category⟩
        let w4 := w3.emit (Event.insert y)
        match channelsInsert env w3.trace.length y with
        | InsertOutcome.duplicate => (w4, true)
        | InsertOutcome.failed err =>
          match addPage env url request.Category request.Term w4 with
          | (w5, false) => (w5, false)
          | (w5, true) => (w5.emit (Event.fatal ("Database write failed" ++ err)), false)
        | InsertOutcome.accepted =>
          (({ w4 with channels := w4.channels ++ [y] }).emit
            (Event.print ("Parsed channel " ++ name)), true)

/-- The inner loop of `parseSearchPages`: one `addPage` per link, until a
failed push ends the process. -/
def addPages (env : Env) (request : searchRequest) : List String → World → World × Bool
  | [], w => (w, true)
  | item :: rest, w =>
    let url := "https://www.youtube.com" ++ item
    match addPage env url request.Category request.Term w with
    | (w1, false) => (w1, false)
    | (w1, true) => addPages env request rest w1

/-- The loop `for i := 1; i <= 34; i++` of `parseSearchPages`, from the test
of the condition at counter `i`.  `url.Parse` of the constant address cannot
fail.  On an empty page before 33 the body sets `i = 33` and continues, and
the post statement `i++` then runs.  The result is `none` when `fuel`
iterations were not enough. -/
def parseSearchPagesLoop (env : Env) (request : searchRequest) :
    Nat → Nat → World → Option (World × Bool)
  | 0, _, _ => none
  | fuel + 1, i, w =>
    if i ≤ 34 then
      match searchList env (searchPageURL request.Term i) w with
      | (w1, result) =>
        let w2 := w1.emit (Event.print
          ("Parsed search term " ++ request.Term ++ " page " ++ strconv.Itoa i))
        if result.length = 0 ∧ i < 33 then
          parseSearchPagesLoop env request fuel (33 + 1) w2
        else
          match addPages env request result w2 with
          | (w3, false) => some (w3, false)
          | (w3, true) => parseSearchPagesLoop env request fuel (i + 1) w3
    else some (w, true)

/-- `func parseSearchPages`, run for at most `fuel` tests of the loop
condition. -/
def parseSearchPages (fuel : Nat) (env : Env) (request : searchRequest) (w : World) :
    Option (World × Bool) :=
  parseSearchPagesLoop env request fuel 1 w

/-- The entry the `/search` handler pushes for one term: the term with every
`;` replaced by a space, then `;`, then the category. -/
def searchEntry (term category : String) : String :=
  strings.Replace term ';' ' ' ++ ";" ++ category

/-- The loop over the terms in the `/search` handler; `some` is the response
written when a push fails. -/
def searchHandlerLoop (env : Env) (category : String) :
    List String → World → World × Option String
  | [], w => (w, none)
  | term :: rest, w =>
    match rpush env searchKey (searchEntry term category) w with
    | (w1, some _) => (w1, some "Push to queue error")
    | (w1, none) => searchHandlerLoop env category rest w1

/-- The `/search` handler, given the form values `terms` and `category`;
the result is the new world and the response body. -/
def searchHandler (env : Env) (termsValue categoryValue : String) (w : World) :
    World × String :=
  let terms := strings.Split termsValue ','
  let category := if categoryValue = "" then "none" else categoryValue
  if terms.headD "" = "" then (w, "mismatch term params")
  else
    match searchHandlerLoop env category terms w with
    | (w1, some response) => (w1, response)
    | (w1, none) => (w1, "got it")

/-- The search consumer loop of `main`, from the popped entry to the request
it passes to `parseSearchPages`: the positional literal
`searchRequest{splited[1], splited[0]}` fills `Category` then `Term`.  An
index out of range panics (`none`). -/
def searchConsumer (entry : String) : Option searchRequest :=
  let splited := strings.Split entry ';'
  match splited.get? 1, splited.get? 0 with
  | some s1, some s0 => some ⟨s1, s0⟩
  | _, _ => none

/-- The pages consumer loop of `main`, from the popped entry to the request it
passes to `profilePage`. -/
def pagesConsumer (entry : String) : Option pageRequest :=
  let splited := strings.Split entry ';'
  match splited.get? 0, splited.get? 1, splited.get? 2 with
  | some s0, some s1, some s2 => some ⟨s0, s1, s2⟩
  | _, _, _ => none

/-! ## Vocabulary of the statements -/

/-- A decimal digit, as `strconv.ParseUint` tests it. -/
def isDecimalDigit (c : Char) : Prop := '0' ≤ c ∧ c ≤ '9'

instance : DecidablePred isDecimalDigit := fun c => by
  unfold isDecimalDigit; infer_instance

/-- The number written by the decimal digits `ds` read after the number `acc`. -/
def decimalValue (acc : Nat) (ds : List Char) : Nat :=
  ds.foldl (fun a c => a * 10 + (c.toNat - '0'.toNat)) acc

/-- `Padded ds t`: the text `t` is `ds` with no-break spaces, spaces and commas
inserted at any positions. -/
inductive Padded : List Char → List Char → Prop where
  | nil : Padded [] []
  | sep (c : Char) (ds t : List Char) : isSeparator c = true → Padded ds t → Padded ds (c :: t)
  | keep (d : Char) (ds t : List Char) : Padded ds t → Padded (d :: ds) (d :: t)

/-- A world with an empty collection, empty lists and no call made. -/
def emptyWorld : World := ⟨[], [], [], []⟩

/-- Collaborators that never fail: every fetch of address `u` answers `f u`,
every lookup and push succeeds, the store accepts every record that reaches
it, and the clock reads 0. -/
def reliable (f : String → Except String Document) : Env :=
  { httpGet := fun _ u => f u
    findErr := fun _ => none
    insertRes := fun _ => InsertOutcome.accepted
    rpushErr := fun _ => none
    now := fun _ => 0 }

/-- A result page whose channel links have the given `href` values. -/
def resultPage (links : List String) : Document :=
  { matchAll := fun selector =>
      if selector = ".qualified-channel-title-wrapper .yt-uix-sessionlink" then
        links.map (fun h => { Attr := [⟨"class", "yt-uix-sessionlink"⟩, ⟨"href", h⟩],
                              FirstChild := some "channel" })
      else [] }

/-- An about page that shows the subscriber text `subscribers`, the name
`Gophers` and no description or thumbnail. -/
def aboutPage (subscribers : String) : Document :=
  { matchAll := fun selector =>
      if selector = ".subscribed" then [{ Attr := [], FirstChild := some subscribers }]
      else if selector = ".branded-page-header-title-link" then
        [{ Attr := [⟨"href", "/channel/gophers"⟩], FirstChild := some "Gophers" }]
      else [] }

/-- The page request used in the examples. -/
def gophers : pageRequest :=
  { URL := "https://www.youtube.com/channel/gophers", Category := "tech", Term := "golang" }

/-- A syntactically valid base-10 unsigned integer: a non-empty string of
decimal digits. -/
def isUintSyntax (s : String) : Prop :=
  s.data ≠ [] ∧ ∀ c ∈ s.data, isDecimalDigit c

instance : DecidablePred isUintSyntax := fun s => by
  unfold isUintSyntax; infer_instance

/-- Collaborators whose store lookup fails with `err`; nothing else fails. -/
def lookupFails (err : String) : Env :=
  { reliable (fun _ => Except.error "unreachable") with findErr := fun _ => some err }

/-- Collaborators that serve the document `doc` at every address and whose
store answers `r` to every record that reaches it; nothing else fails. -/
def insertAnswers (doc : Document) (r : InsertOutcome) : Env :=
  { reliable (fun _ => Except.ok doc) with insertRes := fun _ => r }

/-- The links `searchList` returns when the fetch answers `r`. -/
def linksOf (r : Except String Document) : List String :=
  match r with
  | Except.error _ => []
  | Except.ok doc => hrefs (doc.matchAll ".qualified-channel-title-wrapper .yt-uix-sessionlink")

/-- The entry of `pages` for the link `href` found for `request`. -/
def pageEntry (request : searchRequest) (href : String) : String :=
  "https://www.youtube.com" ++ href ++ ";" ++ request.Category ++ ";" ++ request.Term

/-- A result set for the term `golang`: three channel links on page 1 and
none on any other page. -/
def golangResults (u : String) : Except String Document :=
  if u = searchPageURL "golang" 1 then
    Except.ok (resultPage ["/channel/a", "/user/b", "/channel/c"])
  else Except.ok (resultPage [])

/-- A result set for the term `golang`: one channel link on each of the pages
1 to 4, 33 and 34, and none on the pages 5 to 32. -/
def skipAheadResults (u : String) : Except String Document :=
  if u = searchPageURL "golang" 1 then Except.ok (resultPage ["/channel/p1"])
  else if u = searchPageURL "golang" 2 then Except.ok (resultPage ["/channel/p2"])
  else if u = searchPageURL "golang" 3 then Except.ok (resultPage ["/channel/p3"])
  else if u = searchPageURL "golang" 4 then Except.ok (resultPage ["/channel/p4"])
  else if u = searchPageURL "golang" 33 then Except.ok (resultPage ["/channel/p33"])
  else if u = searchPageURL "golang" 34 then Except.ok (resultPage ["/channel/p34"])
  else Except.ok (resultPage [])

/-- The search request of the examples: category `tech`, term `golang`. -/
def golang : searchRequest := { Category := "tech", Term := "golang" }

/-! # Theorems

## Parsing the subscriber count -/

theorem char_le_iff (a b : Char) : a ≤ b ↔ a.toNat ≤ b.toNat := by
  exact Iff.rfl

theorem digitValue_of_digit (c : Char) (h : isDecimalDigit c) :
    digitValue c = some (c.toNat - '0'.toNat) ∧ c.toNat - '0'.toNat < 10 := by
  obtain ⟨h0, h9⟩ := h
  refine ⟨by simp [digitValue, h0, h9], ?_⟩
  rw [char_le_iff] at h9
  have : '9'.toNat = 57 := by decide
  have : '0'.toNat = 48 := by decide
  omega

theorem parseUintLoop_not_digit (c : Char) (rest : List Char) (acc : Nat)
    (h : ¬ isDecimalDigit c) :
    parseUintLoop (c :: rest) acc = (0, some NumError.ErrSyntax) := by
  unfold isDecimalDigit at h
  simp only [parseUintLoop, digitValue, h, if_false]
  split_ifs <;> simp

theorem decimalValue_ge (ds : List Char) (acc : Nat) : acc ≤ decimalValue acc ds := by
  induction ds generalizing acc with
  | nil => simp [decimalValue]
  | cons d ds ih =>
    have := ih (acc * 10 + (d.toNat - '0'.toNat))
    simp only [decimalValue, List.foldl_cons] at this ⊢
    omega

theorem decimalValue_cons (d : Char) (ds : List Char) (acc : Nat) :
    decimalValue acc (d :: ds) = decimalValue (acc * 10 + (d.toNat - '0'.toNat)) ds := rfl

theorem parseUintLoop_digits (ds tail : List Char) (acc : Nat)
    (hd : ∀ d ∈ ds, isDecimalDigit d) (hv : decimalValue acc ds ≤ maxUint64) :
    parseUintLoop (ds ++ tail) acc = parseUintLoop tail (decimalValue acc ds) := by
  induction ds generalizing acc with
  | nil => simp [decimalValue]
  | cons d ds ih =>
    obtain ⟨hval, hlt⟩ := digitValue_of_digit d (hd d (by simp))
    rw [decimalValue_cons] at hv ⊢
    have hge := decimalValue_ge ds (acc * 10 + (d.toNat - '0'.toNat))
    have hmax : maxUint64 = 18446744073709551615 := by decide
    have hcut : cutoff10 = 1844674407370955162 := by decide
    rw [← ih _ (fun x hx => hd x (by simp [hx])) hv]
    simp only [List.cons_append, parseUintLoop, hval]
    have h1 : ¬ (d.toNat - '0'.toNat ≥ 10) := by omega
    have h2 : ¬ (acc ≥ cutoff10) := by omega
    have h3 : (acc * 10) % 2 ^ 64 = acc * 10 := Nat.mod_eq_of_lt (by omega)
    have h4 : (acc * 10 + (d.toNat - '0'.toNat)) % 2 ^ 64 = acc * 10 + (d.toNat - '0'.toNat) :=
      Nat.mod_eq_of_lt (by omega)
    simp only [h1, h2, if_false, h3, h4]
    have h5 : ¬ (acc * 10 + (d.toNat - '0'.toNat) < acc * 10 ∨
        acc * 10 + (d.toNat - '0'.toNat) > maxUint64) := by omega
    simp only [h5, if_false]
    rfl

theorem parseUintLoop_overflow (ds tail : List Char) (acc : Nat)
    (hd : ∀ d ∈ ds, isDecimalDigit d) (hacc : acc ≤ maxUint64)
    (hv : maxUint64 < decimalValue acc ds) :
    parseUintLoop (ds ++ tail) acc = (maxUint64, some NumError.ErrRange) := by
  induction ds generalizing acc with
  | nil => simp [decimalValue] at hv; omega
  | cons d ds ih =>
    obtain ⟨hval, hlt⟩ := digitValue_of_digit d (hd d (by simp))
    rw [decimalValue_cons] at hv
    have hmax : maxUint64 = 18446744073709551615 := by decide
    have hcut : cutoff10 = 1844674407370955162 := by decide
    simp only [List.cons_append, parseUintLoop, hval]
    have h1 : ¬ (d.toNat - '0'.toNat ≥ 10) := by omega
    simp only [h1, if_false]
    by_cases h2 : acc ≥ cutoff10
    · simp [h2]
    · have h3 : (acc * 10) % 2 ^ 64 = acc * 10 := Nat.mod_eq_of_lt (by omega)
      simp only [h2, if_false, h3]
      by_cases h4 : acc * 10 + (d.toNat - '0'.toNat) ≤ maxUint64
      · have h5 : (acc * 10 + (d.toNat - '0'.toNat)) % 2 ^ 64 =
            acc * 10 + (d.toNat - '0'.toNat) := Nat.mod_eq_of_lt (by omega)
        have h6 : ¬ (acc * 10 + (d.toNat - '0'.toNat) < acc * 10 ∨
            acc * 10 + (d.toNat - '0'.toNat) > maxUint64) := by omega
        simp only [h5, h6, if_false]
        exact ih _ (fun x hx => hd x (by simp [hx])) h4 hv
      · have h5 : (acc * 10 + (d.toNat - '0'.toNat)) % 2 ^ 64 < acc * 10 := by omega
        rw [if_pos (Or.inl h5)]

theorem digitChar_digit (d : Nat) (h : d < 10) :
    isDecimalDigit (Nat.digitChar d) ∧ (Nat.digitChar d).toNat - '0'.toNat = d ∧
      isSeparator (Nat.digitChar d) = false := by
  interval_cases d <;> decide

theorem toDigitsCore_spec (fuel n : Nat) (ds : List Char) (h : n < fuel) :
    ∃ l : List Char, l ≠ [] ∧ Nat.toDigitsCore 10 fuel n ds = l ++ ds ∧
      (∀ c ∈ l, isDecimalDigit c ∧ isSeparator c = false) ∧
      ∀ acc, decimalValue acc l = acc * 10 ^ l.length + n := by
  induction fuel generalizing n ds with
  | zero => omega
  | succ fuel ih =>
    obtain ⟨hd, hv, hs⟩ := digitChar_digit (n % 10) (Nat.mod_lt _ (by decide))
    by_cases h0 : n / 10 = 0
    · refine ⟨[Nat.digitChar (n % 10)], by simp, by simp [Nat.toDigitsCore, h0], ?_, ?_⟩
      · intro c hc
        simp only [List.mem_singleton] at hc
        subst hc
        exact ⟨hd, hs⟩
      · intro acc
        simp only [decimalValue, List.foldl_cons, List.foldl_nil, hv, List.length_singleton,
          pow_one]
        omega
    · obtain ⟨l, hne, hl, hdig, hval⟩ := ih (n / 10) (Nat.digitChar (n % 10) :: ds) (by omega)
      refine ⟨l ++ [Nat.digitChar (n % 10)], by simp, ?_, ?_, ?_⟩
      · simp [Nat.toDigitsCore, h0, hl]
      · intro c hc
        rcases List.mem_append.mp hc with hc | hc
        · exact hdig c hc
        · simp only [List.mem_singleton] at hc
          subst hc
          exact ⟨hd, hs⟩
      · intro acc
        have := hval acc
        simp only [decimalValue, List.foldl_append, List.foldl_cons, List.foldl_nil, hv,
          List.length_append, List.length_singleton, pow_succ] at this ⊢
        rw [this]
        have := Nat.div_add_mod n 10
        nlinarith [Nat.div_add_mod n 10]

theorem repr_spec (n : Nat) :
    (Nat.repr n).data ≠ [] ∧ (∀ c ∈ (Nat.repr n).data, isDecimalDigit c ∧ isSeparator c = false) ∧
      decimalValue 0 (Nat.repr n).data = n := by
  obtain ⟨l, hne, hl, hdig, hval⟩ := toDigitsCore_spec (n + 1) n [] (by omega)
  have : (Nat.repr n).data = l := by
    simp [Nat.repr, Nat.toDigits, hl, List.asString]
  rw [this]
  exact ⟨hne, hdig, by simpa using hval 0⟩

theorem parseUint_repr (n : Nat) (h : n < 2 ^ 64) :
    strconv.ParseUint (Nat.repr n) = (n, none) := by
  obtain ⟨hne, hdig, hval⟩ := repr_spec n
  have hmax : maxUint64 = 18446744073709551615 := by decide
  have := parseUintLoop_digits (Nat.repr n).data [] 0 (fun d hd => (hdig d hd).1)
    (by rw [hval]; omega)
  simp only [List.append_nil, hval] at this
  simp [strconv.ParseUint, hne, this, parseUintLoop]

theorem padded_filter (ds t : List Char) (h : Padded ds t)
    (hd : ∀ c ∈ ds, isSeparator c = false) :
    t.filter (fun c => !isSeparator c) = ds := by
  induction h with
  | nil => rfl
  | sep c ds t hc _ ih => simp [List.filter_cons, hc, ih hd]
  | keep d ds t _ ih =>
    have h1 : isSeparator d = false := hd d (by simp)
    simp [List.filter_cons, h1, ih (fun c hc => hd c (by simp [hc]))]

theorem subscriberCount_padded (n : Nat) (t : String) (h : n < 2 ^ 64)
    (hp : Padded (Nat.repr n).data t.data) : subscriberCount t = (n, none) := by
  obtain ⟨hne, hdig, _⟩ := repr_spec n
  have hf := padded_filter _ _ hp (fun c hc => (hdig c hc).2)
  have h1 : subscribersReplacer t = Nat.repr n := by
    apply String.ext
    simpa [subscribersReplacer] using hf
  have h2 : Nat.repr n ≠ "" := by
    intro h3
    apply hne
    rw [h3]
  simp [subscriberCount, h1, h2, parseUint_repr n h]

theorem subscriberCount_separators (t : String) (h : ∀ c ∈ t.data, isSeparator c = true) :
    subscriberCount t = (0, none) := by
  have h1 : subscribersReplacer t = "" := by
    apply String.ext
    simp only [subscribersReplacer]
    rw [List.filter_eq_nil_iff]
    intro c hc
    simp [h c hc]
  simp only [subscriberCount, h1, if_true]
  decide

/-! ## The search queue -/

theorem splitChars_ne_nil (sep : Char) (l : List Char) : splitChars sep l ≠ [] := by
  cases l with
  | nil => simp [splitChars]
  | cons c cs =>
    simp only [splitChars]
    split_ifs
    · simp
    · split <;> simp

theorem splitChars_of_not_mem (sep : Char) (a : List Char) (h : sep ∉ a) :
    splitChars sep a = [a] := by
  induction a with
  | nil => rfl
  | cons c cs ih =>
    have hc : c ≠ sep := fun e => h (by simp [e])
    have := ih (fun hm => h (by simp [hm]))
    simp [splitChars, hc, this]

theorem splitChars_append (sep : Char) (a b : List Char) (h : sep ∉ a) :
    splitChars sep (a ++ sep :: b) = a :: splitChars sep b := by
  induction a with
  | nil => simp [splitChars]
  | cons c cs ih =>
    have hc : c ≠ sep := fun e => h (by simp [e])
    have := ih (fun hm => h (by simp [hm]))
    simp [splitChars, hc, this]

theorem replace_of_not_mem (s : String) (old new : Char) (h : old ∉ s.data) :
    strings.Replace s old new = s := by
  apply String.ext
  simp only [strings.Replace]
  conv_rhs => rw [← List.map_id s.data]
  apply List.map_congr_left
  intro c hc
  have : c ≠ old := fun e => h (e ▸ hc)
  simp [this]

theorem split_entry (term category : String) (ht : ';' ∉ term.data)
    (hc : ';' ∉ category.data) :
    strings.Split (searchEntry term category) ';' = [term, category] := by
  simp only [strings.Split, searchEntry, replace_of_not_mem term ';' ' ' ht,
    String.data_append]
  rw [List.append_assoc, List.singleton_append, splitChars_append _ _ _ ht,
    splitChars_of_not_mem _ _ hc]
  rfl

theorem pushed_append (key : String) (a b : List Event) :
    pushed key (a ++ b) = pushed key a ++ pushed key b := by
  simp [pushed, List.filterMap_append]

theorem rpush_search_spec (env : Env) (message : String) (w : World) :
    pushed searchKey (rpush env searchKey message w).1.trace =
      pushed searchKey w.trace ++ [message] ∧
    ((rpush env searchKey message w).2 = none →
      (rpush env searchKey message w).1.search = w.search ++ [message]) ∧
    (env.rpushErr w.trace.length = none → (rpush env searchKey message w).2 = none) := by
  have hk : ¬ searchKey = pagesKey := by decide
  simp only [rpush, World.emit, hk, if_false, if_true]
  rcases env.rpushErr w.trace.length with _ | e <;> simp [pushed_append, pushed]

/-- The loop of the `/search` handler issues a push for the terms of an
initial segment of its list, in order, and for all of them when no push
fails. -/
theorem searchHandlerLoop_spec (env : Env) (category : String) (ts : List String) (w : World) :
    (∃ n, pushed searchKey (searchHandlerLoop env category ts w).1.trace =
      pushed searchKey w.trace ++ (ts.take n).map (fun t => searchEntry t category)) ∧
    ((∀ k, env.rpushErr k = none) →
      (searchHandlerLoop env category ts w).2 = none ∧
      (searchHandlerLoop env category ts w).1.search =
        w.search ++ ts.map (fun t => searchEntry t category)) := by
  induction ts generalizing w with
  | nil => exact ⟨⟨0, by simp [searchHandlerLoop]⟩, fun _ => by simp [searchHandlerLoop]⟩
  | cons term rest ih =>
    obtain ⟨r1, r2, r3⟩ := rpush_search_spec env (searchEntry term category) w
    simp only [searchHandlerLoop]
    rcases hr : rpush env searchKey (searchEntry term category) w with ⟨w1, e⟩
    rw [hr] at r1 r2 r3
    simp only at r1 r2 r3
    rcases e with _ | e
    · obtain ⟨⟨n, hn⟩, h2⟩ := ih w1
      refine ⟨⟨n + 1, ?_⟩, ?_⟩
      · simp only [hn, r1, List.take_succ_cons, List.map_cons, List.append_assoc,
          List.singleton_append]
      · intro hp
        obtain ⟨h3, h4⟩ := h2 hp
        refine ⟨h3, ?_⟩
        simp only [h4, r2 rfl, List.map_cons, List.append_assoc, List.singleton_append]
    · refine ⟨⟨1, ?_⟩, ?_⟩
      · simp [r1]
      · intro hp
        have := r3 (hp _)
        simp at this

theorem searchHandler_eq (env : Env) (termsValue categoryValue : String) (w : World) :
    searchHandler env termsValue categoryValue w =
      if (strings.Split termsValue ',').headD "" = "" then (w, "mismatch term params")
      else
        ((searchHandlerLoop env (if categoryValue = "" then "none" else categoryValue)
            (strings.Split termsValue ',') w).1,
          (searchHandlerLoop env (if categoryValue = "" then "none" else categoryValue)
            (strings.Split termsValue ',') w).2.getD "got it") := by
  unfold searchHandler
  dsimp only
  by_cases hhead : (strings.Split termsValue ',').headD "" = ""
  · rw [if_pos hhead, if_pos hhead]
  · rw [if_neg hhead, if_neg hhead]
    rcases searchHandlerLoop env _ _ w with ⟨w1, _ | r⟩ <;> rfl

/-- C6 (amended): for terms and a category without `;`, every entry the
`/search` handler pushes is `term;category'`, for the terms of the request in
order, where `category'` is the submitted category, or `none` when the
submitted category is empty; split on `;` and read by the search consumer
loop, such an entry gives back a `searchRequest` whose `Term` is the term and
whose `Category` is `category'`.  When the first term is not empty and no
push fails, one entry is pushed for every term. -/
theorem search_queue_field_order (env : Env) (termsValue categoryValue : String) (w : World)
    (ht : ∀ t ∈ strings.Split termsValue ',', ';' ∉ t.data)
    (hc : ';' ∉ categoryValue.data) :
    (∃ n, pushed searchKey (searchHandler env termsValue categoryValue w).1.trace =
      pushed searchKey w.trace ++
        ((strings.Split termsValue ',').take n).map (fun t =>
          t ++ ";" ++ (if categoryValue = "" then "none" else categoryValue))) ∧
    (∀ t ∈ strings.Split termsValue ',',
      searchConsumer (t ++ ";" ++ (if categoryValue = "" then "none" else categoryValue)) =
        some { Category := if categoryValue = "" then "none" else categoryValue,
               Term := t }) ∧
    ((strings.Split termsValue ',').headD "" ≠ "" → (∀ k, env.rpushErr k = none) →
      (searchHandler env termsValue categoryValue w).1.search =
        w.search ++ (strings.Split termsValue ',').map (fun t =>
          t ++ ";" ++ (if categoryValue = "" then "none" else categoryValue)) ∧
      (searchHandler env termsValue categoryValue w).2 = "got it") := by
  have hc2 : ';' ∉ (if categoryValue = "" then "none" else categoryValue).data := by
    split_ifs
    · decide
    · exact hc
  rw [searchHandler_eq]
  generalize (if categoryValue = "" then "none" else categoryValue) = category at hc2 ⊢
  have hentry : ∀ t ∈ strings.Split termsValue ',',
      searchEntry t category = t ++ ";" ++ category := by
    intro t hmem
    simp only [searchEntry, replace_of_not_mem t ';' ' ' (ht t hmem)]
  have hmap : ∀ l : List String, (∀ t ∈ l, t ∈ strings.Split termsValue ',') →
      l.map (fun t => searchEntry t category) = l.map (fun t => t ++ ";" ++ category) := by
    intro l hl
    apply List.map_congr_left
    intro t hmem
    exact hentry t (hl t hmem)
  obtain ⟨⟨n, hn⟩, h2⟩ := searchHandlerLoop_spec env category (strings.Split termsValue ',') w
  refine ⟨?_, ?_, ?_⟩
  · by_cases hhead : (strings.Split termsValue ',').headD "" = ""
    · refine ⟨0, ?_⟩
      rw [if_pos hhead]
      simp
    · refine ⟨n, ?_⟩
      rw [if_neg hhead, ← hmap _ (fun t hmem => List.mem_of_mem_take hmem), ← hn]
  · intro t hmem
    rw [← hentry t hmem]
    simp [searchConsumer, split_entry t category (ht t hmem) hc2]
  · intro hhead hp
    obtain ⟨h3, h4⟩ := h2 hp
    rw [if_neg hhead, ← hmap _ (fun t hmem => hmem), ← h4, h3]
    exact ⟨rfl, rfl⟩

/-- C6 (amended) at the terms `golang,rust` and the category `tech`. -/
theorem search_queue_field_order_witness :
    (searchHandler (reliable (fun _ => Except.ok (resultPage []))) "golang,rust" "tech"
        emptyWorld).1.search = ["golang;tech", "rust;tech"] ∧
      searchConsumer "golang;tech" = some { Category := "tech", Term := "golang" } ∧
      searchConsumer "rust;tech" = some { Category := "tech", Term := "rust" } :=
  ⟨((search_queue_field_order (reliable (fun _ => Except.ok (resultPage []))) "golang,rust"
      "tech" emptyWorld (by decide) (by decide)).2.2 (by decide) (fun _ => rfl)).1,
   (search_queue_field_order (reliable (fun _ => Except.ok (resultPage []))) "golang,rust"
      "tech" emptyWorld (by decide) (by decide)).2.1 "golang" (by decide),
   (search_queue_field_order (reliable (fun _ => Except.ok (resultPage []))) "golang,rust"
      "tech" emptyWorld (by decide) (by decide)).2.1 "rust" (by decide)⟩

/-- C6 (counterexample): the term `golang` and the empty category contain no
`;`, yet the handler pushes `golang;none` and the consumer reads the category
`none`, not the submitted empty category. -/
theorem search_queue_field_order_counterexample :
    ';' ∉ "golang".data ∧ ';' ∉ "".data ∧
      (searchHandler (reliable (fun _ => Except.ok (resultPage []))) "golang" ""
        emptyWorld).1.search = ["golang;none"] ∧
      searchConsumer "golang;none" = some { Category := "none", Term := "golang" } ∧
      ("none" : String) ≠ "" := by
  decide

/-! ## Profile ingestion -/

theorem find_none_of_new (request : pageRequest) (cs : List youtuber)
    (hnew : ∀ y ∈ cs, ¬ (y.URL = request.URL ∧ y.Category = request.Category)) :
    cs.find? (fun y => y.URL = request.URL ∧ y.Category = request.Category) = none := by
  rw [List.find?_eq_none]
  intro y hy
  simpa using hnew y hy

theorem exists_notFound (env : Env) (request : pageRequest) (w : World)
    (hfind : env.findErr w.trace.length = none)
    (hnew : ∀ y ∈ w.channels, ¬ (y.URL = request.URL ∧ y.Category = request.Category)) :
    «exists» env request w = (w.emit (Event.find request.URL request.Category), some false) := by
  simp only [«exists», hfind, find_none_of_new request w.channels hnew]

theorem exists_found (env : Env) (request : pageRequest) (w : World)
    (hfind : env.findErr w.trace.length = none)
    (hold : ∃ y ∈ w.channels, y.URL = request.URL ∧ y.Category = request.Category) :
    «exists» env request w = (w.emit (Event.find request.URL request.Category), some true) := by
  obtain ⟨y, hy, hk⟩ := hold
  have : (w.channels.find? (fun y => y.URL = request.URL ∧ y.Category = request.Category)).isSome := by
    rw [List.find?_isSome]
    exact ⟨y, hy, by simpa using hk⟩
  obtain ⟨z, hz⟩ := Option.isSome_iff_exists.mp this
  simp only [«exists», hfind, hz]

/-- What `profilePage` does once the lookup has answered not-found and the
about page has been fetched. -/
theorem profilePage_fetch_ok (env : Env) (request : pageRequest) (w : World) (doc : Document)
    (hfind : env.findErr w.trace.length = none)
    (hnew : ∀ y ∈ w.channels, ¬ (y.URL = request.URL ∧ y.Category = request.Category))
    (hget : env.httpGet (w.trace.length + 1) (request.URL ++ "/about") = Except.ok doc) :
    profilePage env request w =
      (match subscriberCount (getText doc ".subscribed") with
      | (i, err) =>
        let w3 : World := match err with
          | some _ =>
            { w with trace := w.trace ++ [Event.find request.URL request.Category,
                Event.get (request.URL ++ "/about"), Event.print "Error parsing subscribers"] }
          | none =>
            { w with trace := w.trace ++ [Event.find request.URL request.Category,
                Event.get (request.URL ++ "/about")] }
        if i < 1000 then (w3, true)
        else
          let y : youtuber :=
            ⟨getText doc ".branded-page-header-title-link", request.URL, i,
              getText doc ".about-description pre",
              getAttr doc "link[itemprop=\x27thumbnailUrl\x27]" "href",
              env.now w3.trace.length, request.Term, request.Category⟩
          let message := request.URL ++ ";" ++ request.Category ++ ";" ++ request.Term
          match channelsInsert env w3.trace.length y with
          | InsertOutcome.duplicate => ({ w3 with trace := w3.trace ++ [Event.insert y] }, true)
          | InsertOutcome.failed e =>
            match env.rpushErr (w3.trace.length + 1) with
            | some e2 =>
              ({ w3 with trace := w3.trace ++ [Event.insert y, Event.rpush pagesKey message,
                  Event.fatal ("Push page to list error" ++ e2)] }, false)
            | none =>
              ({ w3 with
                  pages := w.pages ++ [message]
                  trace := w3.trace ++ [Event.insert y, Event.rpush pagesKey message,
                    Event.fatal ("Database write failed" ++ e)] }, false)
          | InsertOutcome.accepted =>
            ({ w3 with
                channels := w.channels ++ [y]
                trace := w3.trace ++ [Event.insert y,
                  Event.print ("Parsed channel " ++ getText doc ".branded-page-header-title-link")] },
              true)) := by
  rw [profilePage, exists_notFound env request w hfind hnew]
  simp only [query, World.emit, List.length_append, List.length_singleton, hget]
  rcases subscriberCount (getText doc ".subscribed") with ⟨i, err⟩
  by_cases hi : i < 1000
  · rcases err with _ | e <;>
      simp only [hi, if_true, List.append_assoc, List.singleton_append, List.cons_append,
        List.nil_append]
  · rcases err with _ | e
    · simp only [hi, if_false, addPage, rpush, World.emit, List.length_append,
        List.length_singleton, List.length_cons, List.length_nil, List.append_assoc,
        List.singleton_append, List.cons_append, List.nil_append, Nat.add_assoc, Nat.reduceAdd,
        if_true]
      generalize channelsInsert env _ _ = r
      rcases r with _ | _ | e1 <;> try rfl
      rcases env.rpushErr (w.trace.length + 3) with _ | e2 <;> simp
    · simp only [hi, if_false, addPage, rpush, World.emit, List.length_append,
        List.length_singleton, List.length_cons, List.length_nil, List.append_assoc,
        List.singleton_append, List.cons_append, List.nil_append, Nat.add_assoc, Nat.reduceAdd,
        if_true]
      generalize channelsInsert env _ _ = r
      rcases r with _ | _ | e1 <;> try rfl
      rcases env.rpushErr (w.trace.length + 4) with _ | e2 <;> simp

/-- C1 (threshold enforcement): when the lookup answers not-found, the about
page is fetched, its normalised subscriber text parses without error to `c`
and the insert of a record with `c` subscribers is accepted, `profilePage`
stores a record exactly when `1000 ≤ c`: the collection gains the one record
with `Subscribers = c` if `1000 ≤ c` and is unchanged, with no insert
attempted, if `c < 1000`. -/
theorem profilePage_threshold (env : Env) (request : pageRequest) (w : World)
    (doc : Document) (c : Nat)
    (hfind : env.findErr w.trace.length = none)
    (hnew : ∀ y ∈ w.channels, ¬ (y.URL = request.URL ∧ y.Category = request.Category))
    (hget : env.httpGet (w.trace.length + 1) (request.URL ++ "/about") = Except.ok doc)
    (hparse : subscriberCount (getText doc ".subscribed") = (c, none))
    (hins : ∀ y : youtuber, y.Subscribers = c →
      channelsInsert env (w.trace.length + 2) y = InsertOutcome.accepted) :
    (profilePage env request w).1.channels =
      (if 1000 ≤ c then
        w.channels ++ [{ Name := getText doc ".branded-page-header-title-link",
                         URL := request.URL,
                         Subscribers := c,
                         Description := getText doc ".about-description pre",
                         Image := getAttr doc "link[itemprop=\x27thumbnailUrl\x27]" "href",
                         Created := env.now (w.trace.length + 2),
                         Term := request.Term,
                         Category := request.Category }]
      else w.channels) ∧
    ((profilePage env request w).1.channels ≠ w.channels ↔ 1000 ≤ c) ∧
    (c < 1000 → inserts (profilePage env request w).1.trace = inserts w.trace) := by
  rw [profilePage_fetch_ok env request w doc hfind hnew hget, hparse]
  by_cases hc : 1000 ≤ c
  · have hc2 : ¬ c < 1000 := by omega
    have h := hins ⟨getText doc ".branded-page-header-title-link", request.URL, c,
      getText doc ".about-description pre",
      getAttr doc "link[itemprop=\x27thumbnailUrl\x27]" "href",
      env.now (w.trace.length + 2), request.Term, request.Category⟩ rfl
    simp [hc, hc2, h]
  · have hc2 : c < 1000 := by omega
    simp [hc, hc2, inserts, List.filterMap_append]

/-- C1 at the boundary: the subscriber text `999` stores nothing, the text `1 000`
stores one record with 1000 subscribers. -/
theorem profilePage_threshold_witness :
    (profilePage (reliable (fun _ => Except.ok (aboutPage "999"))) gophers emptyWorld).1.channels
        = [] ∧
      (profilePage (reliable (fun _ => Except.ok (aboutPage "1 000"))) gophers
          emptyWorld).1.channels
        = [{ Name := "Gophers", URL := "https://www.youtube.com/channel/gophers",
             Subscribers := 1000, Description := "", Image := "", Created := 0,
             Term := "golang", Category := "tech" }] :=
  ⟨(profilePage_threshold (reliable (fun _ => Except.ok (aboutPage "999"))) gophers emptyWorld
      (aboutPage "999") 999 rfl (by simp [emptyWorld]) rfl (by decide)
      (fun y hy => by simp [channelsInsert, hy, maxInt64, reliable])).1,
   (profilePage_threshold (reliable (fun _ => Except.ok (aboutPage "1 000"))) gophers emptyWorld
      (aboutPage "1 000") 1000 rfl (by simp [emptyWorld]) rfl (by decide)
      (fun y hy => by simp [channelsInsert, hy, maxInt64, reliable])).1⟩

/-- C8 (subscriber-text normalisation): for `n < 2^64`, any text that is the
decimal digits of `n` with no-break spaces, spaces and commas inserted is
stripped and parsed to `n` without error; a text made only of those three
characters (the empty text included) is read as `0` without error, and
`profilePage` then stops at the threshold: nothing is inserted or pushed. -/
theorem subscriber_text_normalisation :
    (∀ (n : Nat) (t : String), n < 2 ^ 64 → Padded (strconv.Itoa n).data t.data →
      subscriberCount t = (n, none)) ∧
    (∀ t : String, (∀ c ∈ t.data, isSeparator c = true) →
      subscriberCount t = (0, none) ∧
      ∀ (env : Env) (request : pageRequest) (w : World) (doc : Document),
        env.findErr w.trace.length = none →
        (∀ y ∈ w.channels, ¬ (y.URL = request.URL ∧ y.Category = request.Category)) →
        env.httpGet (w.trace.length + 1) (request.URL ++ "/about") = Except.ok doc →
        getText doc ".subscribed" = t →
        profilePage env request w =
          ({ w with trace := w.trace ++ [Event.find request.URL request.Category,
              Event.get (request.URL ++ "/about")] }, true)) ∧
    subscriberCount ("12,3" ++ String.mk [Char.ofNat 160] ++ "45") = (12345, none) ∧
    subscriberCount "" = (0, none) := by
  refine ⟨fun n t h hp => subscriberCount_padded n t h hp, ?_, by decide, by decide⟩
  intro t ht
  refine ⟨subscriberCount_separators t ht, ?_⟩
  intro env request w doc hfind hnew hget htext
  rw [profilePage_fetch_ok env request w doc hfind hnew hget, htext,
    subscriberCount_separators t ht]
  simp

/-- C8 at the texts `1 234,567` and ` , `. -/
theorem subscriber_text_normalisation_witness :
    subscriberCount "1 234,567" = (1234567, none) ∧
      subscriberCount " , " = (0, none) ∧
      profilePage (reliable (fun _ => Except.ok (aboutPage " , "))) gophers emptyWorld =
        ({ emptyWorld with trace := [Event.find gophers.URL gophers.Category,
            Event.get (gophers.URL ++ "/about")] }, true) :=
  ⟨subscriber_text_normalisation.1 1234567 "1 234,567" (by decide)
      (by
        refine Padded.keep _ _ _ (Padded.sep _ _ _ (by decide) ?_)
        refine Padded.keep _ _ _ (Padded.keep _ _ _ (Padded.keep _ _ _ ?_))
        refine Padded.sep _ _ _ (by decide) ?_
        exact Padded.keep _ _ _ (Padded.keep _ _ _ (Padded.keep _ _ _ Padded.nil))),
    (subscriber_text_normalisation.2.1 " , " (by decide)).1,
    (subscriber_text_normalisation.2.1 " , " (by decide)).2
      (reliable (fun _ => Except.ok (aboutPage " , "))) gophers emptyWorld (aboutPage " , ")
      rfl (by simp [emptyWorld]) rfl rfl⟩

theorem subscriberCount_scan (t : String) (ds rest : List Char)
    (htext : (subscribersReplacer t).data = ds ++ rest)
    (hds : ∀ d ∈ ds, isDecimalDigit d) :
    (decimalValue 0 ds ≤ maxUint64 → (∃ c tl, rest = c :: tl ∧ ¬ isDecimalDigit c) →
      subscriberCount t = (0, some NumError.ErrSyntax)) ∧
    (maxUint64 < decimalValue 0 ds →
      subscriberCount t = (maxUint64, some NumError.ErrRange)) := by
  constructor
  · rintro hv ⟨c, tl, rfl, hc⟩
    have hne : subscribersReplacer t ≠ "" := by
      intro h
      rw [h] at htext
      cases ds <;> simp at htext
    have hne2 : (subscribersReplacer t).data ≠ [] := by
      rw [htext]; simp
    simp only [subscriberCount, hne, if_false, strconv.ParseUint, hne2]
    rw [htext, parseUintLoop_digits ds (c :: tl) 0 hds hv, parseUintLoop_not_digit c tl _ hc]
  · intro hv
    have hds0 : ds ≠ [] := by
      rintro rfl
      simp [decimalValue] at hv
    have hne : subscribersReplacer t ≠ "" := by
      intro h
      rw [h] at htext
      cases ds <;> simp at htext hds0
    have hne2 : (subscribersReplacer t).data ≠ [] := by
      rw [htext]; simp [hds0]
    simp only [subscriberCount, hne, if_false, strconv.ParseUint, hne2]
    rw [htext]
    exact parseUintLoop_overflow ds rest 0 hds (Nat.zero_le _) hv

theorem channelsInsert_of_big (env : Env) (k : Nat) (y : youtuber)
    (h : maxInt64 < y.Subscribers) :
    channelsInsert env k y = InsertOutcome.failed
      "BSON has no uint64 type, and value is too large to fit correctly in an int64" :=
  if_pos h

theorem channelsInsert_of_fits (env : Env) (k : Nat) (y : youtuber)
    (h : y.Subscribers ≤ maxInt64) : channelsInsert env k y = env.insertRes k :=
  if_neg (Nat.not_lt.mpr h)

/-- What `profilePage` does when the count passes the threshold and cannot
be encoded. -/
theorem profilePage_not_encodable (env : Env) (request : pageRequest) (w : World)
    (doc : Document) (i : Nat) (e : NumError)
    (hfind : env.findErr w.trace.length = none)
    (hnew : ∀ y ∈ w.channels, ¬ (y.URL = request.URL ∧ y.Category = request.Category))
    (hget : env.httpGet (w.trace.length + 1) (request.URL ++ "/about") = Except.ok doc)
    (hsc : subscriberCount (getText doc ".subscribed") = (i, some e))
    (hi : ¬ i < 1000) (hbig : maxInt64 < i) :
    (∃ line, (profilePage env request w).1.trace =
      w.trace ++ [Event.find request.URL request.Category,
        Event.get (request.URL ++ "/about"), Event.print "Error parsing subscribers",
        Event.insert { Name := getText doc ".branded-page-header-title-link",
                       URL := request.URL,
                       Subscribers := i,
                       Description := getText doc ".about-description pre",
                       Image := getAttr doc "link[itemprop=\x27thumbnailUrl\x27]" "href",
                       Created := env.now (w.trace.length + 3),
                       Term := request.Term,
                       Category := request.Category },
        Event.rpush pagesKey (request.URL ++ ";" ++ request.Category ++ ";" ++ request.Term),
        Event.fatal line]) ∧
    (profilePage env request w).1.channels = w.channels ∧
    (profilePage env request w).2 = false := by
  rw [profilePage_fetch_ok env request w doc hfind hnew hget, hsc]
  simp only [hi, if_false]
  rw [channelsInsert_of_big _ _ _ hbig]
  rcases env.rpushErr _ with _ | e2 <;> simp

/-- C10 (amended): a failed parse does not abort `profilePage`; the count
compared with the threshold is the value `ParseUint` returned with the error.
Write the normalised text as a run of decimal digits `ds` followed by `rest`.
If the digits fit in 64 bits and `rest` starts with a character that is not a
decimal digit, the count is 0 and nothing is stored.  If the digits already
exceed `2^64 - 1`, whatever follows them, the count is `2^64 - 1`: the profile
passes the threshold and the insert is attempted with `Subscribers = 2^64 - 1`,
but the record cannot be encoded, so nothing is stored: the request is pushed
back on `pages` and the run ends in the fatal log. -/
theorem profilePage_parse_failure (env : Env) (request : pageRequest) (w : World)
    (doc : Document) (ds rest : List Char)
    (hfind : env.findErr w.trace.length = none)
    (hnew : ∀ y ∈ w.channels, ¬ (y.URL = request.URL ∧ y.Category = request.Category))
    (hget : env.httpGet (w.trace.length + 1) (request.URL ++ "/about") = Except.ok doc)
    (htext : (subscribersReplacer (getText doc ".subscribed")).data = ds ++ rest)
    (hds : ∀ d ∈ ds, isDecimalDigit d) :
    (decimalValue 0 ds ≤ maxUint64 → (∃ c tl, rest = c :: tl ∧ ¬ isDecimalDigit c) →
      subscriberCount (getText doc ".subscribed") = (0, some NumError.ErrSyntax) ∧
      profilePage env request w =
        ({ w with trace := w.trace ++ [Event.find request.URL request.Category,
            Event.get (request.URL ++ "/about"), Event.print "Error parsing subscribers"] },
          true)) ∧
    (maxUint64 < decimalValue 0 ds →
      subscriberCount (getText doc ".subscribed") = (maxUint64, some NumError.ErrRange) ∧
      (∃ line, (profilePage env request w).1.trace =
        w.trace ++ [Event.find request.URL request.Category,
          Event.get (request.URL ++ "/about"), Event.print "Error parsing subscribers",
          Event.insert { Name := getText doc ".branded-page-header-title-link",
                         URL := request.URL,
                         Subscribers := 2 ^ 64 - 1,
                         Description := getText doc ".about-description pre",
                         Image := getAttr doc "link[itemprop=\x27thumbnailUrl\x27]" "href",
                         Created := env.now (w.trace.length + 3),
                         Term := request.Term,
                         Category := request.Category },
          Event.rpush pagesKey (request.URL ++ ";" ++ request.Category ++ ";" ++ request.Term),
          Event.fatal line]) ∧
      (profilePage env request w).1.channels = w.channels ∧
      (profilePage env request w).2 = false) := by
  obtain ⟨h1, h2⟩ := subscriberCount_scan (getText doc ".subscribed") ds rest htext hds
  constructor
  · intro hv hrest
    refine ⟨h1 hv hrest, ?_⟩
    rw [profilePage_fetch_ok env request w doc hfind hnew hget, h1 hv hrest]
    simp
  · intro hv
    refine ⟨h2 hv, ?_⟩
    have hmax : ¬ maxUint64 < 1000 := by decide
    have hbig : maxInt64 < maxUint64 := by decide
    exact profilePage_not_encodable env request w doc maxUint64 NumError.ErrRange hfind hnew
      hget (h2 hv) hmax hbig

/-- C10 (amended) at the texts `1.2K` and `18446744073709551616`. -/
theorem profilePage_parse_failure_witness :
    (subscriberCount "1.2K" = (0, some NumError.ErrSyntax) ∧
      profilePage (reliable (fun _ => Except.ok (aboutPage "1.2K"))) gophers emptyWorld =
        ({ emptyWorld with trace := [Event.find gophers.URL gophers.Category,
            Event.get (gophers.URL ++ "/about"), Event.print "Error parsing subscribers"] },
          true)) ∧
    (subscriberCount "18446744073709551616" = (maxUint64, some NumError.ErrRange) ∧
      (profilePage (reliable (fun _ => Except.ok (aboutPage "18446744073709551616"))) gophers
          emptyWorld).1.channels = [] ∧
      (profilePage (reliable (fun _ => Except.ok (aboutPage "18446744073709551616"))) gophers
          emptyWorld).2 = false) :=
  ⟨(profilePage_parse_failure (reliable (fun _ => Except.ok (aboutPage "1.2K"))) gophers
      emptyWorld (aboutPage "1.2K") ['1'] ['.', '2', 'K'] rfl (by simp [emptyWorld]) rfl
      (by decide) (by decide)).1 (by decide) ⟨'.', ['2', 'K'], rfl, by decide⟩,
   ⟨((profilePage_parse_failure
      (reliable (fun _ => Except.ok (aboutPage "18446744073709551616"))) gophers
      emptyWorld (aboutPage "18446744073709551616") "18446744073709551616".data [] rfl
      (by simp [emptyWorld]) rfl (by decide) (by decide)).2 (by decide)).1,
    ((profilePage_parse_failure
      (reliable (fun _ => Except.ok (aboutPage "18446744073709551616"))) gophers
      emptyWorld (aboutPage "18446744073709551616") "18446744073709551616".data [] rfl
      (by simp [emptyWorld]) rfl (by decide) (by decide)).2 (by decide)).2.2⟩⟩

/-- C10 (counterexample): the normalised text `18446744073709551616x` is not a
syntactically valid unsigned integer, yet the count compared with the
threshold is `2^64 - 1`, not 0; and at the digit string
`18446744073709551616`, whose value exceeds `2^64 - 1`, no record is stored
even by a store that accepts every record it receives: the insert fails in the
encoder, the request is pushed back on `pages` and the run ends in the fatal
log. -/
theorem profilePage_parse_failure_counterexample :
    ¬ isUintSyntax (subscribersReplacer "18446744073709551616x") ∧
      subscriberCount "18446744073709551616x" = (2 ^ 64 - 1, some NumError.ErrRange) ∧
      profilePage (reliable (fun _ => Except.ok (aboutPage "18446744073709551616"))) gophers
          emptyWorld =
        ({ channels := [],
           search := [],
           pages := ["https://www.youtube.com/channel/gophers;tech;golang"],
           trace := [Event.find "https://www.youtube.com/channel/gophers" "tech",
             Event.get "https://www.youtube.com/channel/gophers/about",
             Event.print "Error parsing subscribers",
             Event.insert { Name := "Gophers", URL := "https://www.youtube.com/channel/gophers",
                            Subscribers := 2 ^ 64 - 1, Description := "", Image := "",
                            Created := 0, Term := "golang", Category := "tech" },
             Event.rpush "pages" "https://www.youtube.com/channel/gophers;tech;golang",
             Event.fatal ("Database write failed" ++
               "BSON has no uint64 type, and value is too large to fit correctly in an int64")] },
          false) := by
  refine ⟨by decide, by decide, by decide⟩

/-- What `profilePage` does when the lookup fails with an error other than
not-found. -/
theorem profilePage_lookup_error (env : Env) (t : pageRequest) (w : World) (err : String)
    (hfind : env.findErr w.trace.length = some err) :
    profilePage env t w =
      (match env.rpushErr (w.trace.length + 1) with
      | some e2 =>
        ({ w with trace := w.trace ++ [Event.find t.URL t.Category,
            Event.rpush pagesKey (t.URL ++ ";" ++ t.Category ++ ";" ++ t.Term),
            Event.fatal ("Push page to list error" ++ e2)] }, false)
      | none =>
        ({ w with
            pages := w.pages ++ [t.URL ++ ";" ++ t.Category ++ ";" ++ t.Term]
            trace := w.trace ++ [Event.find t.URL t.Category,
              Event.rpush pagesKey (t.URL ++ ";" ++ t.Category ++ ";" ++ t.Term),
              Event.fatal ("Error checking existance" ++ err)] }, false)) := by
  simp only [profilePage, «exists», hfind, addPage, rpush, World.emit, List.length_append,
    List.length_singleton, if_true]
  rcases env.rpushErr (w.trace.length + 1) with _ | e2 <;> simp

/-- C9 (re-enqueue on a store error): if the lookup fails with an error other
than not-found, or the insert (of the record with the parsed count) fails with
an error other than duplicate-key,
`profilePage` issues exactly one `RPush` on `pages`, of
`URL;Category;Term` of the same request, followed by the fatal log that ends
the run; the collection is unchanged, and the entry is on the list when the
push is accepted.  When the insert answers duplicate-key nothing is pushed and
the collection is unchanged. -/
theorem profilePage_store_errors (env : Env) (t : pageRequest) (w : World) :
    (∀ err, env.findErr w.trace.length = some err →
      (∃ line, (profilePage env t w).1.trace =
        w.trace ++ [Event.find t.URL t.Category,
          Event.rpush pagesKey (t.URL ++ ";" ++ t.Category ++ ";" ++ t.Term),
          Event.fatal line]) ∧
      (profilePage env t w).2 = false ∧
      (profilePage env t w).1.channels = w.channels ∧
      (env.rpushErr (w.trace.length + 1) = none →
        (profilePage env t w).1.pages =
          w.pages ++ [t.URL ++ ";" ++ t.Category ++ ";" ++ t.Term])) ∧
    (∀ doc, env.findErr w.trace.length = none →
      (∀ y ∈ w.channels, ¬ (y.URL = t.URL ∧ y.Category = t.Category)) →
      env.httpGet (w.trace.length + 1) (t.URL ++ "/about") = Except.ok doc →
      1000 ≤ (subscriberCount (getText doc ".subscribed")).1 →
      ∀ k, k = w.trace.length + 2 +
          (if (subscriberCount (getText doc ".subscribed")).2 = none then 0 else 1) →
        (∀ err, (∀ y : youtuber,
            y.Subscribers = (subscriberCount (getText doc ".subscribed")).1 →
            channelsInsert env k y = InsertOutcome.failed err) →
          (∃ before y line, (profilePage env t w).1.trace =
            w.trace ++ before ++ [Event.insert y,
              Event.rpush pagesKey (t.URL ++ ";" ++ t.Category ++ ";" ++ t.Term),
              Event.fatal line] ∧ pushed pagesKey before = []) ∧
          (profilePage env t w).2 = false ∧
          (profilePage env t w).1.channels = w.channels ∧
          (env.rpushErr (k + 1) = none →
            (profilePage env t w).1.pages =
              w.pages ++ [t.URL ++ ";" ++ t.Category ++ ";" ++ t.Term])) ∧
        ((∀ y : youtuber,
            y.Subscribers = (subscriberCount (getText doc ".subscribed")).1 →
            channelsInsert env k y = InsertOutcome.duplicate) →
          pushed pagesKey (profilePage env t w).1.trace = pushed pagesKey w.trace ∧
          (profilePage env t w).1.pages = w.pages ∧
          (profilePage env t w).1.channels = w.channels ∧
          (profilePage env t w).2 = true)) := by
  constructor
  · intro err hfind
    rw [profilePage_lookup_error env t w err hfind]
    rcases env.rpushErr (w.trace.length + 1) with _ | e2 <;> simp
  · intro doc hfind hnew hget hc k hk
    rw [profilePage_fetch_ok env t w doc hfind hnew hget]
    rcases hsc : subscriberCount (getText doc ".subscribed") with ⟨i, perr⟩
    rw [hsc] at hc hk
    have hi : ¬ i < 1000 := by simpa using hc
    rcases perr with _ | pe
    · simp only [if_true, Nat.add_zero] at hk
      subst hk
      constructor
      · intro err hins
        have h := hins ⟨getText doc ".branded-page-header-title-link", t.URL, i,
          getText doc ".about-description pre",
          getAttr doc "link[itemprop=\x27thumbnailUrl\x27]" "href",
          env.now (w.trace.length + 2), t.Term, t.Category⟩ rfl
        simp only [hi, if_false, List.length_append, List.length_cons, List.length_nil,
          Nat.zero_add, Nat.reduceAdd, h]
        rcases env.rpushErr (w.trace.length + 2 + 1) with _ | e2 <;> dsimp only
        · refine ⟨⟨[Event.find t.URL t.Category, Event.get (t.URL ++ "/about")], _, _, rfl, rfl⟩,
            rfl, rfl, fun _ => rfl⟩
        · refine ⟨⟨[Event.find t.URL t.Category, Event.get (t.URL ++ "/about")], _, _, rfl, rfl⟩,
            rfl, rfl, fun h => by simp at h⟩
      · intro hins
        have h := hins ⟨getText doc ".branded-page-header-title-link", t.URL, i,
          getText doc ".about-description pre",
          getAttr doc "link[itemprop=\x27thumbnailUrl\x27]" "href",
          env.now (w.trace.length + 2), t.Term, t.Category⟩ rfl
        simp only [hi, if_false, List.length_append, List.length_cons, List.length_nil,
          Nat.zero_add, Nat.reduceAdd, h]
        simp [pushed, List.filterMap_append]
    · simp only [reduceCtorEq, if_false] at hk
      subst hk
      constructor
      · intro err hins
        have h := hins ⟨getText doc ".branded-page-header-title-link", t.URL, i,
          getText doc ".about-description pre",
          getAttr doc "link[itemprop=\x27thumbnailUrl\x27]" "href",
          env.now (w.trace.length + 2 + 1), t.Term, t.Category⟩ rfl
        simp only [hi, if_false, List.length_append, List.length_cons, List.length_nil,
          Nat.zero_add, Nat.reduceAdd, h]
        rcases env.rpushErr (w.trace.length + 2 + 1 + 1) with _ | e2 <;> dsimp only
        · refine ⟨⟨[Event.find t.URL t.Category, Event.get (t.URL ++ "/about"),
              Event.print "Error parsing subscribers"], _, _, rfl, rfl⟩,
            rfl, rfl, fun _ => rfl⟩
        · refine ⟨⟨[Event.find t.URL t.Category, Event.get (t.URL ++ "/about"),
              Event.print "Error parsing subscribers"], _, _, rfl, rfl⟩,
            rfl, rfl, fun h => by simp at h⟩
      · intro hins
        have h := hins ⟨getText doc ".branded-page-header-title-link", t.URL, i,
          getText doc ".about-description pre",
          getAttr doc "link[itemprop=\x27thumbnailUrl\x27]" "href",
          env.now (w.trace.length + 2 + 1), t.Term, t.Category⟩ rfl
        simp only [hi, if_false, List.length_append, List.length_cons, List.length_nil,
          Nat.zero_add, Nat.reduceAdd, h]
        simp [pushed, List.filterMap_append]

/-- C9 at a failed lookup, a failed insert and a duplicate-key insert of the
example request: the entry lands on `pages` in the first two cases only. -/
theorem profilePage_store_errors_witness :
    (profilePage (lookupFails "no reachable servers") gophers emptyWorld).1.pages =
        ["https://www.youtube.com/channel/gophers;tech;golang"] ∧
      (profilePage (insertAnswers (aboutPage "5000") (InsertOutcome.failed "timeout")) gophers
          emptyWorld).1.pages = ["https://www.youtube.com/channel/gophers;tech;golang"] ∧
      (profilePage (insertAnswers (aboutPage "5000") InsertOutcome.duplicate) gophers
          emptyWorld).1.pages = [] :=
  ⟨((profilePage_store_errors (lookupFails "no reachable servers") gophers emptyWorld).1
      "no reachable servers" rfl).2.2.2 rfl,
   (((profilePage_store_errors (insertAnswers (aboutPage "5000") (InsertOutcome.failed "timeout"))
      gophers emptyWorld).2 (aboutPage "5000") rfl (by simp [emptyWorld]) rfl (by decide) 2
      (by decide)).1 "timeout"
      (fun y hy => channelsInsert_of_fits _ _ y (by rw [hy]; decide))).2.2.2 rfl,
   (((profilePage_store_errors (insertAnswers (aboutPage "5000") InsertOutcome.duplicate)
      gophers emptyWorld).2 (aboutPage "5000") rfl (by simp [emptyWorld]) rfl (by decide) 2
      (by decide)).2
      (fun y hy => channelsInsert_of_fits _ _ y (by rw [hy]; decide))).2.1⟩

theorem profilePage_found (env : Env) (t : pageRequest) (w : World)
    (hfind : env.findErr w.trace.length = none)
    (hold : ∃ y ∈ w.channels, y.URL = t.URL ∧ y.Category = t.Category) :
    profilePage env t w = (w.emit (Event.find t.URL t.Category), true) := by
  rw [profilePage, exists_found env t w hfind hold]

theorem profilePage_fetch_error (env : Env) (t : pageRequest) (w : World) (err : String)
    (hfind : env.findErr w.trace.length = none)
    (hnew : ∀ y ∈ w.channels, ¬ (y.URL = t.URL ∧ y.Category = t.Category))
    (hget : env.httpGet (w.trace.length + 1) (t.URL ++ "/about") = Except.error err) :
    (profilePage env t w).1.channels = w.channels := by
  rw [profilePage, exists_notFound env t w hfind hnew]
  simp [query, World.emit, hget]

/-- A run of `profilePage` leaves the collection as it was or appends one
record with the key of the request, and the latter only if no record had that
key. -/
theorem profilePage_channels (env : Env) (t : pageRequest) (w : World) :
    (profilePage env t w).1.channels = w.channels ∨
      ((∀ y ∈ w.channels, ¬ (y.URL = t.URL ∧ y.Category = t.Category)) ∧
        ∃ y : youtuber, y.URL = t.URL ∧ y.Category = t.Category ∧
          (profilePage env t w).1.channels = w.channels ++ [y]) := by
  rcases hfind : env.findErr w.trace.length with _ | err
  · by_cases hold : ∃ y ∈ w.channels, y.URL = t.URL ∧ y.Category = t.Category
    · left
      rw [profilePage_found env t w hfind hold]
      rfl
    · have hnew : ∀ y ∈ w.channels, ¬ (y.URL = t.URL ∧ y.Category = t.Category) :=
        fun y hy hk => hold ⟨y, hy, hk⟩
      rcases hget : env.httpGet (w.trace.length + 1) (t.URL ++ "/about") with err | doc
      · left
        exact profilePage_fetch_error env t w err hfind hnew hget
      · rw [profilePage_fetch_ok env t w doc hfind hnew hget]
        rcases subscriberCount (getText doc ".subscribed") with ⟨i, perr⟩
        by_cases hi : i < 1000
        · left
          rcases perr with _ | pe <;> simp [hi]
        · rcases perr with _ | pe
          · simp only [hi, if_false]
            generalize channelsInsert env _ _ = r
            rcases r with _ | _ | e1
            · right
              exact ⟨hnew, _, rfl, rfl, rfl⟩
            · left; rfl
            · left
              dsimp only
              rcases env.rpushErr _ with _ | e2 <;> rfl
          · simp only [hi, if_false]
            generalize channelsInsert env _ _ = r
            rcases r with _ | _ | e1
            · right
              exact ⟨hnew, _, rfl, rfl, rfl⟩
            · left; rfl
            · left
              dsimp only
              rcases env.rpushErr _ with _ | e2 <;> rfl
  · left
    rw [profilePage_lookup_error env t w err hfind]
    rcases env.rpushErr (w.trace.length + 1) with _ | e2 <;> rfl

theorem uniqueKeys_append (cs : List youtuber) (y : youtuber) (hu : uniqueKeys cs)
    (hnew : ∀ z ∈ cs, ¬ (z.URL = y.URL ∧ z.Category = y.Category)) :
    uniqueKeys (cs ++ [y]) := by
  unfold uniqueKeys at *
  rw [List.pairwise_append]
  refine ⟨hu, List.pairwise_singleton _ _, ?_⟩
  intro a ha b hb
  simp only [List.mem_singleton] at hb
  subst hb
  exact hnew a ha

theorem keyCount_le_one (url category : String) (cs : List youtuber) (hu : uniqueKeys cs) :
    keyCount url category cs ≤ 1 := by
  induction cs with
  | nil => simp [keyCount]
  | cons a rest ih =>
    unfold uniqueKeys at hu
    rw [List.pairwise_cons] at hu
    have ih2 := ih hu.2
    unfold keyCount at ih2 ⊢
    rw [List.countP_cons]
    by_cases ha : a.URL = url ∧ a.Category = category
    · have : List.countP (fun y => decide (y.URL = url ∧ y.Category = category)) rest = 0 := by
        rw [List.countP_eq_zero]
        intro b hb
        have := hu.1 b hb
        simp only [decide_eq_true_eq]
        rintro ⟨h1, h2⟩
        exact this ⟨ha.1.trans h1.symm, ha.2.trans h2.symm⟩
      rw [this]
      simp [ha]
    · simp only [ha, decide_False, Bool.false_eq_true, if_false, Nat.add_zero]
      exact ih2

theorem profilePage_uniqueKeys (env : Env) (t : pageRequest) (w : World)
    (hu : uniqueKeys w.channels) : uniqueKeys (profilePage env t w).1.channels := by
  rcases profilePage_channels env t w with h | ⟨hnew, y, hy1, hy2, h⟩
  · rw [h]; exact hu
  · rw [h]
    exact uniqueKeys_append _ _ hu (fun z hz => by rw [hy1, hy2]; exact hnew z hz)

/-- C4 (idempotence of ingestion): from a collection in which no two records
share `(URL, Category)`, two runs of `profilePage` on the same request, with
any answers of the collaborators, leave a collection in which no two records
share `(URL, Category)` and at most one record has the key of the request;
and if the first run changed the collection, the second run, its lookup not
failing, finds the record and returns after the lookup alone: no fetch, no
insert, no push, and the collection and the lists are as the first run left
them. -/
theorem profilePage_twice (env : Env) (t : pageRequest) (w : World)
    (hu : uniqueKeys w.channels) :
    uniqueKeys (profilePage env t (profilePage env t w).1).1.channels ∧
    keyCount t.URL t.Category (profilePage env t (profilePage env t w).1).1.channels ≤ 1 ∧
    ((profilePage env t w).1.channels ≠ w.channels →
      env.findErr (profilePage env t w).1.trace.length = none →
      profilePage env t (profilePage env t w).1 =
        ({ (profilePage env t w).1 with
            trace := (profilePage env t w).1.trace ++ [Event.find t.URL t.Category] }, true)) := by
  have h1 := profilePage_uniqueKeys env t w hu
  have h2 := profilePage_uniqueKeys env t _ h1
  refine ⟨h2, keyCount_le_one _ _ _ h2, ?_⟩
  intro hchg hfind
  rcases profilePage_channels env t w with h | ⟨_, y, hy1, hy2, h⟩
  · exact absurd h hchg
  · rw [profilePage_found env t _ hfind ⟨y, by rw [h]; simp, hy1, hy2⟩]
    rfl

/-- C4 at the example request, run twice from the empty collection. -/
theorem profilePage_twice_witness :
    uniqueKeys (profilePage (reliable (fun _ => Except.ok (aboutPage "5000"))) gophers
        (profilePage (reliable (fun _ => Except.ok (aboutPage "5000"))) gophers
          emptyWorld).1).1.channels ∧
      profilePage (reliable (fun _ => Except.ok (aboutPage "5000"))) gophers
        (profilePage (reliable (fun _ => Except.ok (aboutPage "5000"))) gophers emptyWorld).1 =
        ({ (profilePage (reliable (fun _ => Except.ok (aboutPage "5000"))) gophers
              emptyWorld).1 with
            trace := (profilePage (reliable (fun _ => Except.ok (aboutPage "5000"))) gophers
              emptyWorld).1.trace ++ [Event.find gophers.URL gophers.Category] }, true) :=
  ⟨(profilePage_twice (reliable (fun _ => Except.ok (aboutPage "5000"))) gophers emptyWorld
      (by simp [uniqueKeys, emptyWorld])).1,
   (profilePage_twice (reliable (fun _ => Except.ok (aboutPage "5000"))) gophers emptyWorld
      (by simp [uniqueKeys, emptyWorld])).2.2 (by decide) rfl⟩

/-! ## Search expansion -/

theorem fetched_append (a b : List Event) : fetched (a ++ b) = fetched a ++ fetched b := by
  simp [fetched, List.filterMap_append]

theorem searchList_spec (env : Env) (url : String) (w : World) :
    (searchList env url w).2 = linksOf (env.httpGet w.trace.length url) ∧
    fetched (searchList env url w).1.trace = fetched w.trace ++ [url] ∧
    (searchList env url w).1.pages = w.pages ∧
    (searchList env url w).1.channels = w.channels ∧
    (searchList env url w).1.search = w.search := by
  simp only [searchList, query, World.emit]
  rcases env.httpGet w.trace.length url with err | doc <;>
    simp [linksOf, fetched_append, fetched]

theorem addPage_spec (env : Env) (url category term : String) (w : World) :
    fetched (addPage env url category term w).1.trace = fetched w.trace ∧
    (addPage env url category term w).1.channels = w.channels ∧
    (addPage env url category term w).1.search = w.search ∧
    ((addPage env url category term w).2 = true →
      (addPage env url category term w).1.pages =
        w.pages ++ [url ++ ";" ++ category ++ ";" ++ term]) ∧
    (env.rpushErr w.trace.length = none → (addPage env url category term w).2 = true) := by
  simp only [addPage, rpush, World.emit, if_true]
  rcases env.rpushErr w.trace.length with _ | e <;> simp [fetched_append, fetched]

theorem addPages_spec (env : Env) (request : searchRequest) (items : List String) (w : World) :
    fetched (addPages env request items w).1.trace = fetched w.trace ∧
    (addPages env request items w).1.channels = w.channels ∧
    (addPages env request items w).1.search = w.search ∧
    ((addPages env request items w).2 = true →
      (addPages env request items w).1.pages = w.pages ++ items.map (pageEntry request)) ∧
    ((∀ k, env.rpushErr k = none) → (addPages env request items w).2 = true) := by
  induction items generalizing w with
  | nil => simp [addPages]
  | cons item rest ih =>
    obtain ⟨h1, h2, h3, h4, h5⟩ :=
      addPage_spec env ("https://www.youtube.com" ++ item) request.Category request.Term w
    simp only [addPages]
    rcases hap : addPage env ("https://www.youtube.com" ++ item) request.Category request.Term w
      with ⟨w1, b⟩
    rw [hap] at h1 h2 h3 h4 h5
    simp only at h1 h2 h3 h4 h5
    rcases b with _ | _
    · refine ⟨h1, h2, h3, by simp, ?_⟩
      intro hp
      simpa using h5 (hp _)
    · obtain ⟨i1, i2, i3, i4, i5⟩ := ih w1
      refine ⟨i1.trans h1, i2.trans h2, i3.trans h3, ?_, i5⟩
      intro hb
      rw [i4 hb, h4 rfl]
      simp [pageEntry]

theorem fetched_emit_print (w : World) (line : String) :
    fetched (w.emit (Event.print line)).trace = fetched w.trace := by
  simp [World.emit, fetched_append, fetched]

/-- The loop of `parseSearchPages` from counter `i` ends within `36 - i` tests
of its condition.  `rs` lists the pages it fetched with the links each gave. -/
theorem parseSearchPagesLoop_spec (env : Env) (request : searchRequest) (fuel i : Nat)
    (w : World) (hfuel : 35 - i < fuel) :
    ∃ (w' : World) (b : Bool) (rs : List (Nat × List String)),
      parseSearchPagesLoop env request fuel i w = some (w', b) ∧
      fetched w'.trace = fetched w.trace ++ rs.map (fun r => searchPageURL request.Term r.1) ∧
      (rs.map Prod.fst).Pairwise (· < ·) ∧
      (∀ r ∈ rs, i ≤ r.1 ∧ r.1 ≤ 34 ∧
        ∃ k, r.2 = linksOf (env.httpGet k (searchPageURL request.Term r.1))) ∧
      (b = true → w'.pages = w.pages ++ rs.flatMap (fun r => r.2.map (pageEntry request))) ∧
      ((∀ k, env.rpushErr k = none) → b = true) ∧
      w'.channels = w.channels ∧ w'.search = w.search := by
  induction fuel generalizing i w with
  | zero => omega
  | succ fuel ih =>
    by_cases hi : i ≤ 34
    · obtain ⟨s1, s2, s3, s4, s5⟩ := searchList_spec env (searchPageURL request.Term i) w
      simp only [parseSearchPagesLoop, hi, if_true]
      rcases hsl : searchList env (searchPageURL request.Term i) w with ⟨w1, result⟩
      rw [hsl] at s1 s2 s3 s4 s5
      simp only at s1 s2 s3 s4 s5
      by_cases hskip : result.length = 0 ∧ i < 33
      · simp only [hskip, and_self, if_true]
        obtain ⟨w', b, rs, e1, e2, e3, e4, e5, e6, e7, e8⟩ :=
          ih (33 + 1) (w1.emit (Event.print
            ("Parsed search term " ++ request.Term ++ " page " ++ strconv.Itoa i))) (by omega)
        have hres : result = [] := List.length_eq_zero.mp hskip.1
        refine ⟨w', b, (i, result) :: rs, e1, ?_, ?_, ?_, ?_, e6, ?_, ?_⟩
        · rw [e2, fetched_emit_print, s2]
          simp
        · simp only [List.map_cons, List.pairwise_cons]
          refine ⟨?_, e3⟩
          intro p hp
          obtain ⟨r, hr, rfl⟩ := List.mem_map.mp hp
          have := (e4 r hr).1
          omega
        · intro r hr
          rcases List.mem_cons.mp hr with rfl | hr
          · exact ⟨le_refl _, hi, _, s1⟩
          · obtain ⟨h1, h2, h3⟩ := e4 r hr
            exact ⟨by omega, h2, h3⟩
        · intro hb
          rw [e5 hb]
          simp [World.emit, s3, hres]
        · rw [e7]; simp [World.emit, s4]
        · rw [e8]; simp [World.emit, s5]
      · simp only [hskip, if_false]
        obtain ⟨a1, a2, a3, a4, a5⟩ := addPages_spec env request result (w1.emit (Event.print
            ("Parsed search term " ++ request.Term ++ " page " ++ strconv.Itoa i)))
        rcases hap : addPages env request result (w1.emit (Event.print
            ("Parsed search term " ++ request.Term ++ " page " ++ strconv.Itoa i)))
          with ⟨w3, b3⟩
        rw [hap] at a1 a2 a3 a4 a5
        simp only at a1 a2 a3 a4 a5
        rcases b3 with _ | _
        · refine ⟨w3, false, [(i, result)], rfl, ?_, by simp, ?_, by simp, ?_, ?_, ?_⟩
          · rw [a1, fetched_emit_print, s2]
            simp
          · intro r hr
            simp only [List.mem_singleton] at hr
            subst hr
            exact ⟨le_refl _, hi, _, s1⟩
          · intro hp
            simpa using a5 hp
          · rw [a2]; simp [World.emit, s4]
          · rw [a3]; simp [World.emit, s5]
        · obtain ⟨w', b, rs, e1, e2, e3, e4, e5, e6, e7, e8⟩ := ih (i + 1) w3 (by omega)
          refine ⟨w', b, (i, result) :: rs, e1, ?_, ?_, ?_, ?_, e6, ?_, ?_⟩
          · rw [e2, a1, fetched_emit_print, s2]
            simp
          · simp only [List.map_cons, List.pairwise_cons]
            refine ⟨?_, e3⟩
            intro p hp
            obtain ⟨r, hr, rfl⟩ := List.mem_map.mp hp
            have := (e4 r hr).1
            omega
          · intro r hr
            rcases List.mem_cons.mp hr with rfl | hr
            · exact ⟨le_refl _, hi, _, s1⟩
            · obtain ⟨h1, h2, h3⟩ := e4 r hr
              exact ⟨by omega, h2, h3⟩
          · intro hb
            rw [e5 hb, a4 rfl]
            simp [World.emit, s3]
          · rw [e7, a2]; simp [World.emit, s4]
          · rw [e8, a3]; simp [World.emit, s5]
    · refine ⟨w, true, [], ?_, by simp, by simp, by simp, by simp, fun _ => rfl, rfl, rfl⟩
      simp [parseSearchPagesLoop, hi]

theorem parseSearchPagesLoop_fuel (env : Env) (request : searchRequest) (fuel i : Nat)
    (w : World) (r : World × Bool)
    (h : parseSearchPagesLoop env request fuel i w = some r) :
    parseSearchPagesLoop env request (fuel + 1) i w = some r := by
  induction fuel generalizing i w with
  | zero => simp [parseSearchPagesLoop] at h
  | succ fuel ih =>
    rw [parseSearchPagesLoop] at h ⊢
    by_cases hi : i ≤ 34
    · simp only [hi, if_true] at h ⊢
      revert h
      rcases searchList env (searchPageURL request.Term i) w with ⟨w1, result⟩
      simp only
      by_cases hskip : result.length = 0 ∧ i < 33
      · simp only [hskip, and_self, if_true]
        exact ih _ _
      · simp only [hskip, if_false]
        rcases addPages env request result _ with ⟨w3, b3⟩
        rcases b3 with _ | _
        · exact id
        · exact ih _ _
    · simp only [hi, if_false] at h ⊢
      exact h

theorem parseSearchPagesLoop_fuel_le (env : Env) (request : searchRequest) (fuel fuel2 i : Nat)
    (w : World) (r : World × Bool) (hle : fuel ≤ fuel2)
    (h : parseSearchPagesLoop env request fuel i w = some r) :
    parseSearchPagesLoop env request fuel2 i w = some r := by
  induction hle with
  | refl => exact h
  | step _ ih => exact parseSearchPagesLoop_fuel env request _ i w r ih

theorem length_le_of_increasing (l : List Nat) (a b : Nat) (hs : l.Pairwise (· < ·))
    (hr : ∀ p ∈ l, a ≤ p ∧ p ≤ b) : l.length ≤ b + 1 - a := by
  induction l generalizing a with
  | nil => simp
  | cons p rest ih =>
    rw [List.pairwise_cons] at hs
    have hp := hr p (by simp)
    have := ih (p + 1) hs.2 (fun q hq => ⟨hs.1 q hq, (hr q (by simp [hq])).2⟩)
    simp only [List.length_cons]
    omega

/-- C5 (pagination bound): whatever the collaborators answer,
`parseSearchPages` ends within 35 tests of its loop condition, with the same
result for any larger allowance; the addresses it fetched are those of pages
`ps`, at most 34 of them, each between 1 and 34, in strictly increasing
order. -/
theorem parseSearchPages_bound (env : Env) (request : searchRequest) (w : World) (fuel : Nat)
    (hfuel : 35 ≤ fuel) :
    ∃ (w' : World) (b : Bool) (ps : List Nat),
      parseSearchPages fuel env request w = some (w', b) ∧
      parseSearchPages 35 env request w = some (w', b) ∧
      fetched w'.trace = fetched w.trace ++ ps.map (searchPageURL request.Term) ∧
      ps.length ≤ 34 ∧ (∀ p ∈ ps, 1 ≤ p ∧ p ≤ 34) ∧ ps.Pairwise (· < ·) := by
  obtain ⟨w', b, rs, e1, e2, e3, e4, -⟩ :=
    parseSearchPagesLoop_spec env request 35 1 w (by omega)
  have hr : ∀ p ∈ rs.map Prod.fst, 1 ≤ p ∧ p ≤ 34 := by
    intro p hp
    obtain ⟨r, hr, rfl⟩ := List.mem_map.mp hp
    exact ⟨(e4 r hr).1, (e4 r hr).2.1⟩
  refine ⟨w', b, rs.map Prod.fst,
    parseSearchPagesLoop_fuel_le env request 35 fuel 1 w _ hfuel e1, e1, ?_, ?_, hr, e3⟩
  · rw [e2, List.map_map]
    rfl
  · have := length_le_of_increasing _ 1 34 e3 hr
    omega

/-- C5 at the `golang` result set with an allowance of 40. -/
theorem parseSearchPages_bound_witness :
    ∃ (w' : World) (b : Bool) (ps : List Nat),
      parseSearchPages 40 (reliable golangResults) golang emptyWorld = some (w', b) ∧
      parseSearchPages 35 (reliable golangResults) golang emptyWorld = some (w', b) ∧
      fetched w'.trace = fetched emptyWorld.trace ++ ps.map (searchPageURL golang.Term) ∧
      ps.length ≤ 34 ∧ (∀ p ∈ ps, 1 ≤ p ∧ p ≤ 34) ∧ ps.Pairwise (· < ·) :=
  parseSearchPages_bound (reliable golangResults) golang emptyWorld 40 (by decide)

/-- C3 (expansion output and provenance): when every fetch of an address `u`
answers `f u`, `parseSearchPages` ends, and whenever it returns (which it does
when no push fails) the entries it appended to `pages` are exactly, for each
fetched page in fetch order and each link on it in document order, the entry
`https://www.youtube.com` + link, `;`, the category, `;`, the term of the
request; `search` is unchanged.  For term `golang`, category `tech` and three
links on page 1 and none elsewhere, exactly three entries are pushed, each
read back by the pages consumer with category `tech` and term `golang`. -/
theorem parseSearchPages_pushes :
    (∀ (env : Env) (request : searchRequest) (w : World) (fuel : Nat)
        (f : String → Except String Document),
      35 ≤ fuel → (∀ k u, env.httpGet k u = f u) →
      ∃ (w' : World) (b : Bool) (ps : List Nat),
        parseSearchPages fuel env request w = some (w', b) ∧
        fetched w'.trace = fetched w.trace ++ ps.map (searchPageURL request.Term) ∧
        (b = true →
          w'.pages = w.pages ++ ps.flatMap (fun p =>
            (linksOf (f (searchPageURL request.Term p))).map (fun href =>
              "https://www.youtube.com" ++ href ++ ";" ++ request.Category ++ ";" ++
                request.Term)) ∧
          w'.search = w.search) ∧
        ((∀ k, env.rpushErr k = none) → b = true)) ∧
    (parseSearchPages 35 (reliable golangResults) golang emptyWorld).map
        (fun r => (r.1.pages, r.1.pages.map pagesConsumer, r.2)) =
      some (["https://www.youtube.com/channel/a;tech;golang",
             "https://www.youtube.com/user/b;tech;golang",
             "https://www.youtube.com/channel/c;tech;golang"],
            [some ⟨"https://www.youtube.com/channel/a", "tech", "golang"⟩,
             some ⟨"https://www.youtube.com/user/b", "tech", "golang"⟩,
             some ⟨"https://www.youtube.com/channel/c", "tech", "golang"⟩], true) := by
  refine ⟨?_, by decide⟩
  intro env request w fuel f hfuel hf
  obtain ⟨w', b, rs, e1, e2, e3, e4, e5, e6, e7, e8⟩ :=
    parseSearchPagesLoop_spec env request 35 1 w (by omega)
  refine ⟨w', b, rs.map Prod.fst,
    parseSearchPagesLoop_fuel_le env request 35 fuel 1 w _ hfuel e1, ?_, ?_, e6⟩
  · rw [e2, List.map_map]
    rfl
  · intro hb
    refine ⟨?_, e8⟩
    rw [e5 hb]
    congr 1
    rw [List.flatMap_def, List.flatMap_def, List.map_map]
    congr 1
    apply List.map_congr_left
    intro r hr
    obtain ⟨k, hk⟩ := (e4 r hr).2.2
    simp only [Function.comp, hk, hf]
    rfl

/-- C3 at the `golang` result set. -/
theorem parseSearchPages_pushes_witness :
    ∃ (w' : World) (b : Bool) (ps : List Nat),
      parseSearchPages 35 (reliable golangResults) golang emptyWorld = some (w', b) ∧
      fetched w'.trace = fetched emptyWorld.trace ++ ps.map (searchPageURL golang.Term) ∧
      (b = true →
        w'.pages = emptyWorld.pages ++ ps.flatMap (fun p =>
          (linksOf (golangResults (searchPageURL golang.Term p))).map (fun href =>
            "https://www.youtube.com" ++ href ++ ";" ++ golang.Category ++ ";" ++
              golang.Term)) ∧
        w'.search = emptyWorld.search) ∧
      (((∀ k, (reliable golangResults).rpushErr k = none)) → b = true) :=
  parseSearchPages_pushes.1 (reliable golangResults) golang emptyWorld 35 golangResults
    (by decide) (fun _ _ => rfl)

/-- C2 (the code at the failing input): with links on pages 1 to 4, none on
pages 5 to 32 and links on pages 33 and 34, `parseSearchPages` fetches pages
1, 2, 3, 4, 5 and 34: after the empty page 5 the body sets the counter to 33
and the post statement of the loop makes it 34, so page 33 is never fetched
and its link is never pushed.  In general an empty page before 33 is followed
by the test of the loop condition at counter 34. -/
theorem parseSearchPages_skips_page_33 :
    (parseSearchPages 35 (reliable skipAheadResults) golang emptyWorld).map
        (fun r => (fetched r.1.trace, r.1.pages)) =
      some ([1, 2, 3, 4, 5, 34].map (searchPageURL "golang"),
            ["https://www.youtube.com/channel/p1;tech;golang",
             "https://www.youtube.com/channel/p2;tech;golang",
             "https://www.youtube.com/channel/p3;tech;golang",
             "https://www.youtube.com/channel/p4;tech;golang",
             "https://www.youtube.com/channel/p34;tech;golang"]) ∧
    linksOf (skipAheadResults (searchPageURL "golang" 33)) = ["/channel/p33"] ∧
    (∀ (env : Env) (request : searchRequest) (fuel i : Nat) (w : World),
      i < 33 → (searchList env (searchPageURL request.Term i) w).2 = [] →
      parseSearchPagesLoop env request (fuel + 1) i w =
        parseSearchPagesLoop env request fuel 34
          ((searchList env (searchPageURL request.Term i) w).1.emit (Event.print
            ("Parsed search term " ++ request.Term ++ " page " ++ strconv.Itoa i)))) := by
  refine ⟨by decide, by decide, ?_⟩
  intro env request fuel i w hi hempty
  have hi2 : i ≤ 34 := by omega
  rw [parseSearchPagesLoop]
  simp [hi2, hi, hempty]

/-- C7 (the code at the failing input): for `terms = a` and
`category = b;c` the `/search` handler pushes the entry `a;b;c`: the category
is not sanitised, the entry has two `;` and splits into three fields, and the
search consumer reads the category `b`. -/
theorem searchHandler_category_not_sanitised :
    searchHandler (reliable (fun _ => Except.ok (resultPage []))) "a" "b;c" emptyWorld =
      ({ emptyWorld with search := ["a;b;c"], trace := [Event.rpush searchKey "a;b;c"] },
        "got it") ∧
    strings.Split "a;b;c" ';' = ["a", "b", "c"] ∧
    searchConsumer "a;b;c" = some { Category := "b", Term := "a" } ∧
    searchHandler (reliable (fun _ => Except.ok (resultPage []))) "x;y" "tech" emptyWorld =
      ({ emptyWorld with search := ["x y;tech"], trace := [Event.rpush searchKey "x y;tech"] },
        "got it") := by
  decide

end YoutubeChannelsParser
